import Mathlib

/-!
Shallow embedding of `desclamp/postage.py` (class `Candidates`): the catalog
query builder `catalog_query`, the cutout extractor `make_postage_stamps`, and
the mosaic renderer `display_cutouts`.  External collaborators (the GCR
catalog, the butler data store, the sky map) are modelled as structures of
functions; calls into opaque external routines (`rgb.makeRGB`, `WCS(...)`)
are represented by records of their arguments.  Python runtime errors that
the code itself can raise (IndexError on `tracts[0]`, UnboundLocalError on
the never-assigned `filters`, IndexError on `cutout[0]`) are modelled with
`Except`.
-/

namespace DESCLamp

/-- Python runtime errors reachable from the code paths embedded here. -/
inductive PyError where
  | IndexError
  | UnboundLocalError
  | AssertionError
deriving DecidableEq

/-- One catalog entry: the five base identifying fields of
`postage.py` (`objectId`, `ra`, `dec`, `tract`, `patch`).  Extra
user-requested fields play no role in the embedded computations.
Sky coordinates are modelled over `ℚ`. -/
structure ObjectRow where
  objectId : Int
  ra : ℚ
  dec : ℚ
  tract : Int
  patch : String
deriving DecidableEq

instance : Inhabited ObjectRow := ⟨⟨0, 0, 0, 0, ""⟩⟩

/-- The query result (a pandas `DataFrame` of rows, in catalog return order). -/
abbrev ObjectTable := List ObjectRow

/-- The GCR catalog handle: schema introspection (`has_quantities`) and
filtered retrieval (`get_quantities(columns, filters=query,
native_filters=filters)`), both opaque external operations. -/
structure Catalog where
  has_quantities : List String → Bool
  get_quantities : List String → (filters : String) → (native_filters : String) → ObjectTable

/-- The base column list of `catalog_query`:
`columns_to_get = ["objectId", "ra", "dec", "tract", "patch"]`. -/
def base_columns : List String := ["objectId", "ra", "dec", "tract", "patch"]

/-- `np.unique` applied to a Python list of strings: the sorted list of the
distinct elements (lexicographic order on code points, as numpy compares
strings). -/
def np_unique (l : List String) : List String :=
  (l.insertionSort (· ≤ ·)).dedup

/-- The effective column list of `catalog_query`: the base five, and when
`columns is not None` the `np.unique` of base plus extras
(`columns_to_get += columns; columns_to_get = np.unique(columns_to_get)`). -/
def columns_to_get (columns : Option (List String)) : List String :=
  match columns with
  | none => base_columns
  | some cs => np_unique (base_columns ++ cs)

/-- The tract filter built by `catalog_query` from a non-empty tract list:
`filters = f"(tract == {tracts[0]})"` then
`for t in tracts[1:]: filters += f" | (tract == {t})"`. -/
def tract_filter (t0 : Int) (rest : List Int) : String :=
  rest.foldl (fun acc t => acc ++ (" | (tract == " ++ toString t ++ ")"))
    ("(tract == " ++ toString t0 ++ ")")

/-- `Candidates.catalog_query(query, columns, tracts)`.  The assertion
`assert self.cat.has_quantities(columns_to_get)` runs first; then the local
`filters` is assigned only under `if tracts is not None:` — when `tracts`
is `None`, the call `get_quantities(..., native_filters=filters)` reads the
never-assigned local and Python raises `UnboundLocalError`; when `tracts`
is an empty list, `tracts[0]` raises `IndexError`. -/
def catalog_query (cat : Catalog) (query : String)
    (columns : Option (List String)) (tracts : Option (List Int)) :
    Except PyError ObjectTable :=
  let cols := columns_to_get columns
  if cat.has_quantities cols then
    match tracts with
    | some [] => .error .IndexError
    | some (t0 :: rest) => .ok (cat.get_quantities cols query (tract_filter t0 rest))
    | none => .error .UnboundLocalError
  else .error .AssertionError

/-- FITS metadata of a WCS (`getWcs().getFitsMetadata()`): an opaque header,
modelled as a list of cards. -/
structure FitsMetadata where
  cards : List (String × String)
deriving DecidableEq

instance : Inhabited FitsMetadata := ⟨⟨[]⟩⟩

/-- A WCS object attached to an image, exposing `getFitsMetadata()`. -/
structure Wcs where
  getFitsMetadata : FitsMetadata
deriving DecidableEq

/-- A coadd (sub-)image returned by the butler, exposing `getWcs()`. -/
structure Image where
  getWcs : Wcs
deriving DecidableEq

instance : Inhabited Image := ⟨⟨⟨⟨[]⟩⟩⟩⟩

/-- `lsst.geom.Point2I`'s conversion of a floating-point coordinate to an
integer pixel index.  The conversion convention lives in the external
`lsst.geom` library; it is modelled here as `⌊·⌋`.  No theorem below
depends on this choice. -/
def point2I (x : ℚ) : Int := ⌊x⌋

/-- `lsst.geom.BoxI(corner, extent)`: an integer pixel box. -/
structure BoxI where
  corner : Int × Int
  extent : ℕ × ℕ
deriving DecidableEq

/-- The per-tract WCS: `skymap.findTract(radec).getWcs().skyToPixel(radec)`,
an opaque external world-to-pixel transform. -/
structure TractWcs where
  skyToPixel : ℚ × ℚ → ℚ × ℚ

/-- One tract of the sky map, exposing `getWcs()`. -/
structure TractInfo where
  getWcs : TractWcs

/-- The sky map (`butler.get('deepCoadd_skyMap')`), exposing `findTract`. -/
structure SkyMap where
  findTract : ℚ × ℚ → TractInfo

/-- The butler data-access handle: `get('deepCoadd_skyMap')` and
`get("deepCoadd_sub", bbox=…, tract=…, patch=…, filter=band)`. -/
structure Butler where
  deepCoadd_skyMap : SkyMap
  deepCoadd_sub : BoxI → Int → String → Char → Image

/-- The bounding box computed per row in `make_postage_stamps`:
`center = skymap.findTract(radec).getWcs().skyToPixel(radec)` and
`bbox = BoxI(Point2I((center.x - cutout_size*0.5, center.y - cutout_size*0.5)),
ExtentI(cutout_size, cutout_size))`. -/
def computeBBox (skymap : SkyMap) (cutout_size : ℕ) (obj : ObjectRow) : BoxI :=
  let radec : ℚ × ℚ := (obj.ra, obj.dec)
  let center := ((skymap.findTract radec).getWcs).skyToPixel radec
  { corner := (point2I (center.1 - cutout_size * (0.5 : ℚ)),
               point2I (center.2 - cutout_size * (0.5 : ℚ))),
    extent := (cutout_size, cutout_size) }

/-- The per-row band cutouts of `make_postage_stamps`:
`cutout = [butler.get("deepCoadd_sub", bbox=bbox, tract=…, patch=…,
filter=band) for band in bands]`. -/
def computeCutout (butler : Butler) (cutout_size : ℕ) (bands : String)
    (obj : ObjectRow) : List Image :=
  let bbox := computeBBox butler.deepCoadd_skyMap cutout_size obj
  bands.toList.map (fun band => butler.deepCoadd_sub bbox obj.tract obj.patch band)

/-- The accumulator dictionary `cutouts = {"images":[], "wcs":[], "GCR":[]}`. -/
structure CutoutSet where
  images : List (List Image)
  wcs : List FitsMetadata
  GCR : List ObjectRow
deriving DecidableEq

/-- The row loop of `make_postage_stamps`: per row it appends the per-band
cutout list to `images`, the row to `GCR`, and
`cutout[0].getWcs().getFitsMetadata()` to `wcs` — the latter raises
`IndexError` when `bands` is the empty string (so `cutout` is `[]`). -/
def stampLoop (butler : Butler) (cutout_size : ℕ) (bands : String) :
    List ObjectRow → Except PyError CutoutSet
  | [] => .ok ⟨[], [], []⟩
  | obj :: rest =>
    let cutout := computeCutout butler cutout_size bands obj
    match cutout with
    | [] => .error .IndexError
    | first :: _ =>
      match stampLoop butler cutout_size bands rest with
      | .error e => .error e
      | .ok cs => .ok ⟨cutout :: cs.images, first.getWcs.getFitsMetadata :: cs.wcs,
                       obj :: cs.GCR⟩

/-- `Candidates.make_postage_stamps(objects, cutout_size=100, bands='irg')`:
fetches the sky map once and runs the row loop over the object table. -/
def make_postage_stamps (butler : Butler) (objects : List ObjectRow)
    (cutout_size : ℕ) (bands : String) : Except PyError CutoutSet :=
  stampLoop butler cutout_size bands objects

/-- The result of `rgb.makeRGB(*image, dataRange=2, Q=8)`: an opaque external
composition, represented by its arguments. -/
structure RGBImage where
  images : List Image
  dataRange : ℚ
  Q : ℚ
deriving DecidableEq

/-- One mosaic cell drawn by `display_cutouts`: the grid cell `gs[i]`, the
composed RGB image, the `WCS(cutouts["wcs"][i])` projection (represented by
the FITS metadata it is built from), and the `label=str(objectId)`. -/
structure Panel where
  cell : ℕ
  image : RGBImage
  projection : FitsMetadata
  label : String
deriving DecidableEq

/-- The figure produced by `display_cutouts`: a `GridSpec(rows, cols)` and the
drawn panels. -/
structure Figure where
  rows : ℕ
  cols : ℕ
  panels : List Panel
deriving DecidableEq

/-- `Candidates.display_cutouts(cutouts, cutout_size=100)`:
`n = len(cutouts["images"])`, `gs = GridSpec(int(np.sqrt(n)+1),
int(np.sqrt(n)+1))` (the float `np.sqrt` is modelled by the exact
`Nat.sqrt`, for which `int(np.sqrt(n)+1) = Nat.sqrt n + 1`), and for each
`i in range(n)` a panel in cell `gs[i]`.  The body never reads
`cutout_size`. -/
def display_cutouts (cutouts : CutoutSet) (cutout_size : ℕ) : Figure :=
  let n := cutouts.images.length
  let side := Nat.sqrt n + 1
  { rows := side, cols := side,
    panels := (List.range n).map (fun i =>
      { cell := i,
        image := { images := cutouts.images.getD i [], dataRange := 2, Q := 8 },
        projection := cutouts.wcs.getD i default,
        label := toString ((cutouts.GCR.getD i default).objectId) }) }

/-! Concrete fixtures used to exercise the embedded operations. -/

/-- A catalog whose schema accepts every column list and whose retrieval
returns the empty table. -/
def cat0 : Catalog := ⟨fun _ => true, fun _ _ _ => []⟩

/-- A fixed coadd image. -/
def img0 : Image := ⟨⟨⟨[("CTYPE1", "RA---TAN")]⟩⟩⟩

/-- A butler whose sky map uses the identity world-to-pixel transform and
whose sub-image retrieval always returns `img0`. -/
def butler0 : Butler :=
  { deepCoadd_skyMap := ⟨fun _ => ⟨⟨fun p => p⟩⟩⟩,
    deepCoadd_sub := fun _ _ _ _ => img0 }

/-- A sample catalog row. -/
def row0 : ObjectRow := ⟨1234, 55, -30, 4850, "3,3"⟩

/-- The cutout set `make_postage_stamps butler0 [row0] 100 "irg"` produces. -/
def cs0 : CutoutSet :=
  ⟨[[img0, img0, img0]], [img0.getWcs.getFitsMetadata], [row0]⟩

/-! Helper lemmas. -/

/-- Membership is invariant under `np_unique`. -/
theorem mem_np_unique {a : String} {l : List String} :
    a ∈ np_unique l ↔ a ∈ l := by
  simp [np_unique, List.mem_dedup, List.mem_insertionSort]

/-- The accumulator loop building the tract filter computes
`String.intercalate.go`, given that each appended piece is the separator
followed by the atom. -/
theorem foldl_eq_intercalate_go (sep : String) (f g : Int → String)
    (hg : ∀ t, g t = sep ++ f t) :
    ∀ (rest : List Int) (acc : String),
      rest.foldl (fun a t => a ++ g t) acc =
        String.intercalate.go acc sep (rest.map f)
  | [], acc => rfl
  | t :: ts, acc => by
      have h1 : acc ++ g t = acc ++ sep ++ f t := by
        rw [hg t, String.append_assoc]
      simp only [List.foldl, List.map, String.intercalate.go]
      rw [h1]
      exact foldl_eq_intercalate_go sep f g hg ts (acc ++ sep ++ f t)

/-- The row loop of `make_postage_stamps`, when it returns a cutout set,
returns exactly the per-row computations, in row order. -/
theorem stampLoop_ok (butler : Butler) (cutout_size : ℕ) (bands : String) :
    ∀ (objects : List ObjectRow) (cs : CutoutSet),
      stampLoop butler cutout_size bands objects = .ok cs →
      cs.GCR = objects ∧
      cs.images = objects.map (computeCutout butler cutout_size bands) ∧
      cs.wcs = objects.map (fun o =>
        ((computeCutout butler cutout_size bands o).headD
            default).getWcs.getFitsMetadata) := by
  intro objects
  induction objects with
  | nil =>
      intro cs h
      simp only [stampLoop, Except.ok.injEq] at h
      subst h
      exact ⟨rfl, rfl, rfl⟩
  | cons obj rest ih =>
      intro cs h
      simp only [stampLoop] at h
      cases hc : computeCutout butler cutout_size bands obj with
      | nil => rw [hc] at h; simp at h
      | cons first tail =>
        rw [hc] at h
        cases hr : stampLoop butler cutout_size bands rest with
        | error e => rw [hr] at h; simp at h
        | ok cs' =>
          rw [hr] at h
          simp only [Except.ok.injEq] at h
          subst h
          obtain ⟨h1, h2, h3⟩ := ih cs' hr
          exact ⟨by simp [h1], by simp [h2, hc], by simp [h3, hc]⟩

/-! Claim theorems. -/

/-- C1: evaluation of the code at the failing input.  When `tracts` is
`None`, `catalog_query` does not execute the query without a tract filter:
the local `filters` is assigned only under `if tracts is not None:`, so the
call `get_quantities(..., native_filters=filters)` raises
`UnboundLocalError` — even against a catalog whose schema check passes. -/
theorem C1_tracts_none_raises_unbound_local :
    catalog_query cat0 "mag_i < 24" none none = .error .UnboundLocalError := rfl

/-- C2: when `tracts` is an empty list (empty-but-not-None) and the schema
assertion passes, `catalog_query` raises `IndexError` at `tracts[0]` while
building the tract-filter disjunction. -/
theorem C2_empty_tracts_raises_index_error (cat : Catalog) (query : String)
    (columns : Option (List String))
    (h : cat.has_quantities (columns_to_get columns) = true) :
    catalog_query cat query columns (some []) = .error .IndexError := by
  simp [catalog_query, h]

/-- C2 witness: at a concrete catalog whose schema check passes, the empty
tract list yields `IndexError`. -/
theorem C2_empty_tracts_raises_index_error_witness :
    cat0.has_quantities (columns_to_get none) = true ∧
    catalog_query cat0 "mag_i < 24" none (some []) = .error .IndexError :=
  ⟨rfl, C2_empty_tracts_raises_index_error cat0 "mag_i < 24" none rfl⟩

/-- C3: for any extra-columns argument (including `None`), the effective
column list contains the five base identifying fields, has no duplicate
names, and whenever the query executes (`catalog_query` returns a table)
the schema assertion on exactly that column list has passed. -/
theorem C3_base_columns_nodup_schema_checked (columns : Option (List String)) :
    (∀ c ∈ base_columns, c ∈ columns_to_get columns) ∧
    (columns_to_get columns).Nodup ∧
    (∀ (cat : Catalog) (query : String) (tracts : Option (List Int))
        (t : ObjectTable), catalog_query cat query columns tracts = .ok t →
      cat.has_quantities (columns_to_get columns) = true) := by
  refine ⟨?_, ?_, ?_⟩
  · intro c hc
    cases columns with
    | none => exact hc
    | some cs =>
        simp only [columns_to_get, mem_np_unique]
        exact List.mem_append_left _ hc
  · cases columns with
    | none => decide
    | some cs => exact List.nodup_dedup _
  · intro cat query tracts t h
    cases hq : cat.has_quantities (columns_to_get columns) with
    | true => rfl
    | false => simp [catalog_query, hq] at h

/-- C3 witness: at a concrete extras list and catalog, the effective columns
contain `"ra"`, are duplicate-free, and the schema check held on the
successful query. -/
theorem C3_base_columns_nodup_schema_checked_witness :
    ("ra" ∈ columns_to_get (some ["mag_i"])) ∧
    (columns_to_get (some ["mag_i"])).Nodup ∧
    cat0.has_quantities (columns_to_get (some ["mag_i"])) = true :=
  ⟨(C3_base_columns_nodup_schema_checked (some ["mag_i"])).1 "ra" (by decide),
   (C3_base_columns_nodup_schema_checked (some ["mag_i"])).2.1,
   (C3_base_columns_nodup_schema_checked (some ["mag_i"])).2.2 cat0 "mag_i < 24"
     (some [4850]) [] rfl⟩

/-- C4: for every non-empty tract list `t0 :: rest`, the generated native
filter is the disjunction of the atoms `(tract == t)` joined by `" | "`;
in particular for `[10, 20, 30]` it is
`"(tract == 10) | (tract == 20) | (tract == 30)"`. -/
theorem C4_tract_filter_is_disjunction (t0 : Int) (rest : List Int) :
    tract_filter t0 rest =
      String.intercalate " | "
        ((t0 :: rest).map (fun t => "(tract == " ++ toString t ++ ")")) ∧
    tract_filter 10 [20, 30] = "(tract == 10) | (tract == 20) | (tract == 30)" := by
  constructor
  · have hg : ∀ t : Int, " | (tract == " ++ toString t ++ ")" =
        " | " ++ ("(tract == " ++ toString t ++ ")") := by
      intro t
      rw [← String.append_assoc, ← String.append_assoc]
      have hlit : " | " ++ "(tract == " = " | (tract == " := by decide
      rw [hlit]
    simp only [tract_filter, List.map, String.intercalate]
    exact foldl_eq_intercalate_go " | " (fun t => "(tract == " ++ toString t ++ ")")
      (fun t => " | (tract == " ++ toString t ++ ")") hg rest _
  · decide

/-- C5: whenever `make_postage_stamps` returns a cutout set, its three
parallel collections each have length the number of input rows, every
per-entry image list has length the number of band letters, and entry `i`
of each collection is computed from row `i` of the input table. -/
theorem C5_cutout_set_parallel_lengths (butler : Butler)
    (objects : List ObjectRow) (cutout_size : ℕ) (bands : String)
    (cs : CutoutSet)
    (h : make_postage_stamps butler objects cutout_size bands = .ok cs) :
    cs.images.length = objects.length ∧
    cs.wcs.length = objects.length ∧
    cs.GCR.length = objects.length ∧
    (∀ img ∈ cs.images, img.length = bands.length) ∧
    cs.GCR = objects ∧
    cs.images = objects.map (computeCutout butler cutout_size bands) ∧
    cs.wcs = objects.map (fun o =>
      ((computeCutout butler cutout_size bands o).headD
          default).getWcs.getFitsMetadata) := by
  obtain ⟨h1, h2, h3⟩ := stampLoop_ok butler cutout_size bands objects cs h
  refine ⟨by rw [h2, List.length_map], by rw [h3, List.length_map],
    by rw [h1], ?_, h1, h2, h3⟩
  intro img hm
  rw [h2, List.mem_map] at hm
  obtain ⟨o, _, rfl⟩ := hm
  simp only [computeCutout, List.length_map]
  rfl

/-- C5 witness: a one-row table with bands `"irg"` yields a cutout set with
one entry whose image list has three images. -/
theorem C5_cutout_set_parallel_lengths_witness :
    make_postage_stamps butler0 [row0] 100 "irg" = .ok cs0 ∧
    cs0.images.length = 1 ∧ [img0, img0, img0].length = "irg".length :=
  ⟨rfl,
   (C5_cutout_set_parallel_lengths butler0 [row0] 100 "irg" cs0 rfl).1,
   (C5_cutout_set_parallel_lengths butler0 [row0] 100 "irg" cs0 rfl).2.2.2.1
     [img0, img0, img0] (List.mem_singleton.mpr rfl)⟩

/-- C7: `display_cutouts` lays out a square grid of side
`floor(sqrt(n)) + 1`, puts entry `i` into cell `i` (so all cells used are
distinct), and the grid has at least as many cells as entries. -/
theorem C7_display_grid_layout (cutouts : CutoutSet) (cutout_size : ℕ) :
    (display_cutouts cutouts cutout_size).rows =
      Nat.sqrt cutouts.images.length + 1 ∧
    (display_cutouts cutouts cutout_size).cols =
      Nat.sqrt cutouts.images.length + 1 ∧
    (display_cutouts cutouts cutout_size).panels.map Panel.cell =
      List.range cutouts.images.length ∧
    cutouts.images.length ≤
      (display_cutouts cutouts cutout_size).rows *
        (display_cutouts cutouts cutout_size).cols := by
  refine ⟨rfl, rfl, ?_, ?_⟩
  · simp only [display_cutouts, List.map_map]
    exact List.map_id' _
  · exact Nat.le_of_lt (Nat.lt_succ_sqrt cutouts.images.length)

/-- C8: an empty object table yields, for every butler, cutout size and band
string, a cutout set whose three collections are all empty. -/
theorem C8_empty_table_empty_cutout_set (butler : Butler) (cutout_size : ℕ)
    (bands : String) :
    make_postage_stamps butler [] cutout_size bands =
      .ok ({ images := [], wcs := [], GCR := [] } : CutoutSet) := rfl

/-- C9: the figure produced by `display_cutouts` is identical for any two
values of the `cutout_size` argument — the parameter is accepted but never
read by the body. -/
theorem C9_display_ignores_cutout_size (cutouts : CutoutSet) (s1 s2 : ℕ) :
    display_cutouts cutouts s1 = display_cutouts cutouts s2 := rfl

/-- C10: with a non-`None` extras list the effective column list is the
`np.unique` of base plus extras, hence sorted lexicographically rather
than in the caller-supplied order; concretely, extras `["z_mag", "a_mag"]`
do not come out appended in caller order. -/
theorem C10_columns_sorted_not_caller_order (extras : List String) :
    columns_to_get (some extras) = np_unique (base_columns ++ extras) ∧
    List.Sorted (· ≤ ·) (columns_to_get (some extras)) ∧
    columns_to_get (some ["z_mag", "a_mag"]) ≠
      base_columns ++ ["z_mag", "a_mag"] := by
  have hsort : ∀ l : List String, List.Sorted (· ≤ ·) (np_unique l) := fun l =>
    List.Pairwise.sublist (List.dedup_sublist _) (List.sorted_insertionSort _ _)
  refine ⟨rfl, hsort _, ?_⟩
  intro heq
  have hs : List.Sorted (· ≤ ·)
      (["objectId", "ra", "dec", "tract", "patch", "z_mag", "a_mag"] :
        List String) := by
    have h0 := hsort (base_columns ++ ["z_mag", "a_mag"])
    rw [show np_unique (base_columns ++ ["z_mag", "a_mag"]) =
        columns_to_get (some ["z_mag", "a_mag"]) from rfl, heq] at h0
    exact h0
  have hra : ("ra" : String) ≤ "dec" :=
    List.rel_of_sorted_cons hs.of_cons "dec" (by simp)
  rw [String.le_iff_toList_le] at hra
  revert hra
  decide

end DESCLamp
